import Mathlib

/-!
Verification of the CORD-19 research-paper explorer (src/APP.py).

The script's domain logic is embedded shallowly:
* a pandas DataFrame row becomes a `RawRecord` (CSV cells are `Option String`,
  `none` standing for pandas NaN) or, after cleaning, a `Record`;
* `pd.to_datetime(..., errors='coerce')` is modelled by `toDatetime`
  (ISO `YYYY-MM-DD` parsing, coercing failures to `none`);
* `Series.value_counts()` (default `dropna=True, sort=True, ascending=False`)
  is modelled by key collection in first-occurrence order (`firstKeys`,
  `countPairs`) followed by a stable strict-order insertion sort (`sortOrd`);
* `Series.str.contains(kw, case=False, na=False)` compiles `kw` as a regular
  expression (`regex=True` is the pandas default); the fragment of Python
  regular expressions consisting of ordinary characters and `.` is embedded
  (`parseSimple`, `reSearchAux`); patterns outside the fragment map to `none`.
-/

namespace CordApp

/-- A normalized calendar date, as produced by `pd.to_datetime`. -/
structure Date where
  year : Int
  month : Nat
  day : Nat
deriving DecidableEq, Repr

/-- One row of the raw CSV after column projection (src/APP.py line 25):
each of the five retained cells is either a string or NaN (`none`). -/
structure RawRecord where
  title : Option String
  abstract : Option String
  publish_time : Option String
  authors : Option String
  journal : Option String
deriving DecidableEq, Repr

/-- One row after cleaning: `publish_time` has been coerced to a date and
`year` derived from it (src/APP.py lines 28-31). -/
structure Record where
  title : Option String
  abstract : Option String
  publish_time : Option Date
  authors : Option String
  journal : Option String
  year : Option Int
deriving DecidableEq, Repr

/-- Split a character list at every `-`, as `str.split('-')` does. -/
def splitOnDash : List Char → List (List Char)
  | [] => [[]]
  | c :: rest =>
    match splitOnDash rest, decide (c = '-') with
    | r, true => [] :: r
    | [], false => [[c]]
    | h :: t, false => (c :: h) :: t

/-- Parse a non-empty all-digit character list as a decimal number. -/
def parseNatChars (cs : List Char) : Option Nat :=
  if cs ≠ [] ∧ cs.all Char.isDigit then
    some (cs.foldl (fun n c => 10 * n + (c.toNat - 48)) 0)
  else none

/-- Models `pd.to_datetime(s, errors='coerce')` on a single cell, restricted to
ISO `YYYY-MM-DD` input: NaN cells and unparseable strings coerce to `none`
(never raise), valid dates parse to a `Date`. -/
def toDatetime (s : Option String) : Option Date :=
  match s with
  | none => none
  | some str =>
    match splitOnDash str.toList with
    | [y, m, d] =>
      match parseNatChars y, parseNatChars m, parseNatChars d with
      | some yn, some mn, some dn =>
        if 1 ≤ mn ∧ mn ≤ 12 ∧ 1 ≤ dn ∧ dn ≤ 31 then
          some ⟨(yn : Int), mn, dn⟩
        else none
      | _, _, _ => none
    | _ => none

/-- Per-row effect of src/APP.py lines 28-31: coerce `publish_time` to a date
and derive `year` as its null-propagating year component (`.dt.year`). -/
def toRecord (r : RawRecord) : Record :=
  let d := toDatetime r.publish_time
  { title := r.title
    abstract := r.abstract
    publish_time := d
    authors := r.authors
    journal := r.journal
    year := d.map Date.year }

/-- `df.dropna(subset=['title', 'abstract'])` (src/APP.py line 34): keep the
rows whose `title` and `abstract` cells are both non-NaN. -/
def dropnaTitleAbstract (rows : List Record) : List Record :=
  rows.filter (fun r => r.title.isSome && r.abstract.isSome)

/-- The cleaning pipeline of `load_data` (src/APP.py lines 25-34): per-row
date coercion and year derivation, then dropping rows missing `title` or
`abstract`. -/
def clean (rows : List RawRecord) : List Record :=
  dropnaTitleAbstract (rows.map toRecord)

/-- The typed failure of the loader. -/
inductive LoadError where
  | fileNotFound
deriving DecidableEq, Repr

/-- Models `pd.read_csv("metadata.csv", low_memory=False)` (src/APP.py
line 23): the file either resolves to a parsed table or is absent, in which
case `FileNotFoundError` is raised. -/
def readCsv (file : Option (List RawRecord)) : Except LoadError (List RawRecord) :=
  match file with
  | none => Except.error LoadError.fileNotFound
  | some rows => Except.ok rows

/-- `load_data` (src/APP.py lines 18-38): on success, the cleaned table; on
`FileNotFoundError`, an empty DataFrame is substituted (line 38). -/
def load_data (file : Option (List RawRecord)) : List Record :=
  match readCsv file with
  | Except.error _ => []
  | Except.ok rows => clean rows

section ValueCounts

variable {K : Type} [DecidableEq K]

/-- The distinct non-`none` values of a column, in first-occurrence order:
the key order in which `Series.value_counts()` (default `dropna=True`)
collects its groups. NaN values form no group. -/
def firstKeys : List (Option K) → List K
  | [] => []
  | none :: t => firstKeys t
  | some k :: t => k :: (firstKeys t).filter (fun x => decide (x ≠ k))

/-- The per-key occurrence counts of a column, keys in first-occurrence
order; the unsorted content of `Series.value_counts()`. -/
def countPairs (l : List (Option K)) : List (K × Nat) :=
  (firstKeys l).map (fun k => (k, l.countP (fun x => decide (x = some k))))

end ValueCounts

section SortOrd

variable {α : Type}

/-- Insert `a` into `l`, placing it after every element that strictly
precedes it (`lt b a`): the insertion step of a stable sort. -/
def insertOrd (lt : α → α → Bool) (a : α) : List α → List α
  | [] => [a]
  | b :: bs => if lt b a then b :: insertOrd lt a bs else a :: b :: bs

/-- Stable insertion sort by the strict order `lt`: elements neither of
which strictly precedes the other keep their relative order. Models the
sort step of `value_counts()` / `sort_index()`. Where the keys being
sorted are distinct this is exactly the pandas result; where two entries
compare equal (tied counts), pandas sorts via `sort_values` (default
quicksort, unstable) and guarantees no particular tie order, so keeping
first-occurrence order here is a deterministic refinement, not a pandas
guarantee. -/
def sortOrd (lt : α → α → Bool) : List α → List α
  | [] => []
  | a :: as => insertOrd lt a (sortOrd lt as)

end SortOrd

/-- Strict ascending order on years, the sort key of `.sort_index()`
(src/APP.py line 66). -/
def ltYearAsc (a b : Int × Nat) : Bool := decide (a.1 < b.1)

/-- Strict descending order on counts, the sort of `value_counts()`
(src/APP.py line 84); ties are not strictly ordered, so the stable sort
keeps them in first-occurrence order. -/
def ltCountDesc (a b : String × Nat) : Bool := decide (b.2 < a.2)

/-- The year column's per-value counts in first-occurrence order. -/
def rawYearCounts (df : List Record) : List (Int × Nat) :=
  countPairs (df.map Record.year)

/-- `df['year'].value_counts().sort_index()` (src/APP.py line 66): per-year
counts (NaN years dropped), sorted ascending by year. -/
def papers_per_year (df : List Record) : List (Int × Nat) :=
  sortOrd ltYearAsc (rawYearCounts df)

/-- The journal column's per-value counts in first-occurrence order. -/
def rawJournalCounts (df : List Record) : List (String × Nat) :=
  countPairs (df.map Record.journal)

/-- `df['journal'].value_counts().head(10)` (src/APP.py line 84): per-journal
counts (NaN journals dropped), sorted descending by count, truncated to 10.
The order of entries with *equal* counts is unspecified by pandas; this model
fixes it to first-occurrence order (see `sortOrd`), and no theorem about
tied entries should be read as a property of the program. -/
def top_journals (df : List Record) : List (String × Nat) :=
  (sortOrd ltCountDesc (rawJournalCounts df)).take 10

/-! ### Search (src/APP.py lines 96-112)

`df['title'].str.contains(keyword, case=False, na=False)` uses the pandas
default `regex=True`: the keyword is compiled as a Python regular expression
with `re.IGNORECASE` and a row matches when `re.search` succeeds on its
title; NaN titles yield `False` (`na=False`). The embedded fragment covers
patterns built from ordinary characters and the wildcard `.`; a pattern
using any other regex metacharacter is outside the model (`none`). -/

/-- One single-character matcher of the embedded regex fragment. -/
inductive Atom where
  | ch (c : Char)
  | dot
deriving DecidableEq, Repr

/-- The Python regex metacharacters (outside character classes) other than
`.`; a keyword containing one of these is outside the embedded fragment. -/
def metachars : List Char :=
  ['\\', '^', '$', '*', '+', '?', Char.ofNat 0x7b, Char.ofNat 0x7d,
   '[', ']', '|', '(', ')']

/-- A character that stands for itself in a Python regex. -/
def isOrdinary (c : Char) : Bool := decide (c ∉ metachars) && decide (c ≠ '.')

/-- Compile a keyword as `re.compile` does, on the fragment where every
character is either ordinary or the wildcard `.`; other patterns are not
modelled. -/
def parseSimple (pat : String) : Option (List Atom) :=
  pat.toList.mapM (fun c =>
    if c = '.' then some Atom.dot
    else if isOrdinary c then some (Atom.ch c)
    else none)

/-- Single-character matching under `re.IGNORECASE`: an ordinary character
matches up to case, `.` matches anything but a newline. -/
def atomMatches (a : Atom) (c : Char) : Bool :=
  match a with
  | Atom.dot => decide (c ≠ Char.ofNat 10)
  | Atom.ch p => decide (p.toLower = c.toLower)

/-- Whether the compiled pattern matches at the start of `cs`
(anchored match of a fixed-length pattern). -/
def matchAtoms : List Atom → List Char → Bool
  | [], _ => true
  | _ :: _, [] => false
  | a :: as, c :: cs => atomMatches a c && matchAtoms as cs

/-- `re.search`: the pattern matches at some position of the string. -/
def reSearchAux (atoms : List Atom) : List Char → Bool
  | [] => matchAtoms atoms []
  | c :: cs => matchAtoms atoms (c :: cs) || reSearchAux atoms cs

/-- `df[df['title'].str.contains(keyword, case=False, na=False)]`
(src/APP.py line 106): the rows whose title matches the keyword compiled as
a case-insensitive regex; NaN titles never match. `none` when the keyword
is outside the embedded regex fragment. -/
def searchMatches (df : List Record) (keyword : String) : Option (List Record) :=
  (parseSimple keyword).map (fun atoms =>
    df.filter (fun r =>
      match r.title with
      | none => false
      | some t => reSearchAux atoms t.toList))

/-- The search result reaching the user: the guard
`if st.button("Search") and keyword:` (src/APP.py line 104) makes an empty
keyword produce no results at all. -/
def searchResults (df : List Record) (keyword : String) : Option (List Record) :=
  if keyword = "" then some [] else searchMatches df keyword

/-- The rows actually rendered: `st.dataframe(results[...].head(20))`
(src/APP.py line 110). -/
def displayedResults (df : List Record) (keyword : String) : Option (List Record) :=
  (searchResults df keyword).map (fun l => l.take 20)

/-- The match count reported in the success message: `len(results)`
(src/APP.py line 109). -/
def reportedCount (df : List Record) (keyword : String) : Option Nat :=
  (searchResults df keyword).map List.length

/-! ### Spec-side literal search

The specification reads the search as *literal* case-insensitive substring
containment. The following definitions follow the spec's words, to be
compared with the regex-based `searchMatches` above. -/

/-- The characters of a string, lower-cased. -/
def lowerChars (s : String) : List Char := s.toList.map Char.toLower

/-- The spec's matching rule: the keyword occurs in the title as a literal
substring, ignoring case. -/
def containsCI (pat t : String) : Bool := decide (lowerChars pat <:+: lowerChars t)

/-- The search the spec describes: exactly the rows whose (non-null) title
contains the keyword as a literal case-insensitive substring. -/
def literalSearch (df : List Record) (keyword : String) : List Record :=
  df.filter (fun r =>
    match r.title with
    | none => false
    | some t => containsCI keyword t)

/-! ### Properties of the stable insertion sort -/

section SortOrdLemmas

variable {α : Type} (lt : α → α → Bool)

theorem insertOrd_perm (a : α) (l : List α) : List.Perm (insertOrd lt a l) (a :: l) := by
  induction l with
  | nil => exact List.Perm.refl _
  | cons b bs ih =>
    rw [insertOrd]
    by_cases h : lt b a = true
    · rw [if_pos h]
      exact (ih.cons b).trans (List.Perm.swap a b bs)
    · rw [if_neg h]

theorem sortOrd_perm (l : List α) : List.Perm (sortOrd lt l) l := by
  induction l with
  | nil => exact List.Perm.refl _
  | cons a as ih =>
    rw [sortOrd]
    exact (insertOrd_perm lt a (sortOrd lt as)).trans (ih.cons a)

theorem pairwise_insertOrd
    (hasym : ∀ x y, lt x y = true → lt y x = false)
    (htrans : ∀ x y z, lt y x = false → lt z y = false → lt z x = false)
    (a : α) (l : List α) (hl : l.Pairwise (fun x y => lt y x = false)) :
    (insertOrd lt a l).Pairwise (fun x y => lt y x = false) := by
  induction l with
  | nil => simp [insertOrd]
  | cons b bs ih =>
    rcases List.pairwise_cons.1 hl with ⟨hb, hbs⟩
    rw [insertOrd]
    by_cases h : lt b a = true
    · rw [if_pos h]
      refine List.pairwise_cons.2 ⟨?_, ih hbs⟩
      intro y hy
      rcases List.mem_cons.1 ((insertOrd_perm lt a bs).mem_iff.1 hy) with rfl | hy'
      · exact hasym b y h
      · exact hb y hy'
    · rw [if_neg h]
      have h' : lt b a = false := by
        cases hba : lt b a
        · rfl
        · exact absurd hba h
      refine List.pairwise_cons.2 ⟨?_, hl⟩
      intro y hy
      rcases List.mem_cons.1 hy with rfl | hy'
      · exact h'
      · exact htrans a b y h' (hb y hy')

theorem pairwise_sortOrd
    (hasym : ∀ x y, lt x y = true → lt y x = false)
    (htrans : ∀ x y z, lt y x = false → lt z y = false → lt z x = false)
    (l : List α) :
    (sortOrd lt l).Pairwise (fun x y => lt y x = false) := by
  induction l with
  | nil => simp [sortOrd]
  | cons a as ih =>
    rw [sortOrd]
    exact pairwise_insertOrd lt hasym htrans a _ ih

theorem filter_insertOrd (p : α → Bool)
    (hflat : ∀ x y, p x = true → p y = true → lt x y = false)
    (a : α) (l : List α) :
    (insertOrd lt a l).filter p = if p a then a :: l.filter p else l.filter p := by
  induction l with
  | nil =>
    rw [insertOrd]
    by_cases hpa : p a = true
    · simp [List.filter_cons, hpa]
    · simp [List.filter_cons, hpa]
  | cons b bs ih =>
    rw [insertOrd]
    by_cases h : lt b a = true
    · rw [if_pos h]
      by_cases hpb : p b = true
      · have hpa : p a = false := by
          cases hpa : p a
          · rfl
          · have := hflat b a hpb hpa
            rw [this] at h
            exact absurd h (by simp)
        simp [List.filter_cons, hpb, ih, hpa]
      · simp [List.filter_cons, hpb, ih]
    · rw [if_neg h]
      by_cases hpa : p a = true
      · simp [List.filter_cons, hpa]
      · simp [List.filter_cons, hpa]

theorem filter_sortOrd (p : α → Bool)
    (hflat : ∀ x y, p x = true → p y = true → lt x y = false)
    (l : List α) :
    (sortOrd lt l).filter p = l.filter p := by
  induction l with
  | nil => rfl
  | cons a as ih =>
    rw [sortOrd, filter_insertOrd lt p hflat, List.filter_cons]
    by_cases hpa : p a = true
    · simp [hpa, ih]
    · simp [hpa, ih]

end SortOrdLemmas

/-! ### Properties of the value-count model -/

section CountLemmas

variable {α : Type} {K : Type} [DecidableEq K]

theorem mem_firstKeys {k : K} : ∀ {l : List (Option K)}, k ∈ firstKeys l ↔ some k ∈ l
  | [] => by simp [firstKeys]
  | none :: t => by
    rw [firstKeys, List.mem_cons]
    simp [mem_firstKeys (l := t)]
  | some a :: t => by
    rw [firstKeys, List.mem_cons]
    constructor
    · rintro (rfl | hmem)
      · exact List.mem_cons_self _ _
      · exact List.mem_cons_of_mem _ (mem_firstKeys.1 (List.mem_filter.1 hmem).1)
    · intro h
      rcases List.mem_cons.1 h with heq | hmem
      · exact Or.inl (Option.some.inj heq)
      · by_cases hka : k = a
        · exact Or.inl hka
        · refine Or.inr (List.mem_filter.2 ⟨mem_firstKeys.2 hmem, ?_⟩)
          exact decide_eq_true hka

theorem firstKeys_nodup : ∀ (l : List (Option K)), (firstKeys l).Nodup
  | [] => List.nodup_nil
  | none :: t => firstKeys_nodup t
  | some a :: t => by
    rw [firstKeys]
    refine List.nodup_cons.2 ⟨?_, (firstKeys_nodup t).filter _⟩
    intro ha
    have := (List.mem_filter.1 ha).2
    simp at this

theorem countPairs_fst (l : List (Option K)) : (countPairs l).map Prod.fst = firstKeys l := by
  rw [countPairs, List.map_map]
  exact List.map_id _

theorem mem_countPairs {p : K × Nat} {l : List (Option K)} (h : p ∈ countPairs l) :
    p.2 = l.countP (fun x => decide (x = some p.1)) := by
  rcases List.mem_map.1 h with ⟨k, _, rfl⟩
  rfl

theorem countP_disjoint (p q : α → Bool) (l : List α)
    (h : ∀ x, p x = true → q x = false) :
    l.countP p + l.countP q = l.countP (fun x => p x || q x) := by
  induction l with
  | nil => rfl
  | cons a t ih =>
    simp only [List.countP_cons]
    cases hpa : p a with
    | true =>
      have hqa := h a hpa
      simp [hpa, hqa]
      omega
    | false =>
      cases hqa : q a with
      | true => simp [hpa, hqa]; omega
      | false => simp [hpa, hqa]; omega

theorem sum_counts_over_keys (l : List (Option K)) :
    ∀ (keys : List K), keys.Nodup →
      ((keys.map (fun k => l.countP (fun x => decide (x = some k)))).sum =
        l.countP (fun x => keys.any (fun k => decide (x = some k))))
  | [], _ => by simp
  | k :: ks, hnd => by
    rcases List.nodup_cons.1 hnd with ⟨hk, hks⟩
    rw [List.map_cons, List.sum_cons, sum_counts_over_keys l ks hks]
    rw [countP_disjoint]
    · apply List.countP_congr
      intro x _
      rw [List.any_cons]
    · intro x hx
      have hxk : x = some k := of_decide_eq_true hx
      subst hxk
      rw [Bool.eq_false_iff]
      intro hany
      rcases List.any_eq_true.1 hany with ⟨k', hk', hxk'⟩
      have : k = k' := Option.some.inj (of_decide_eq_true hxk')
      exact hk (this ▸ hk')

theorem sum_countPairs (l : List (Option K)) :
    ((countPairs l).map Prod.snd).sum = l.countP Option.isSome := by
  rw [countPairs, List.map_map]
  have h := sum_counts_over_keys l (firstKeys l) (firstKeys_nodup l)
  rw [show (Prod.snd ∘ fun k => (k, l.countP (fun x => decide (x = some k)))) =
        (fun k => l.countP (fun x => decide (x = some k))) from rfl]
  rw [h]
  apply List.countP_congr
  intro x hx
  cases x with
  | none => simp
  | some v =>
    simp only [Option.isSome_some, List.any_eq_true, iff_true]
    exact ⟨v, mem_firstKeys.2 hx, by simp⟩

end CountLemmas

/-! ### The regex fragment on metacharacter-free keywords is literal matching -/

section RegexLemmas

theorem parseChars_ordinary :
    ∀ (cs : List Char), (∀ c ∈ cs, isOrdinary c = true) →
      cs.mapM (fun c =>
        if c = '.' then some Atom.dot
        else if isOrdinary c then some (Atom.ch c)
        else none) = some (cs.map Atom.ch)
  | [], _ => rfl
  | c :: cs, h => by
    have hc : isOrdinary c = true := h c (List.mem_cons_self c cs)
    have hcdot : ¬ c = '.' := by
      have hc' := hc
      rw [isOrdinary, Bool.and_eq_true] at hc'
      exact of_decide_eq_true hc'.2
    rw [List.mapM_cons, if_neg hcdot, if_pos hc,
        parseChars_ordinary cs (fun x hx => h x (List.mem_cons_of_mem c hx))]
    rfl

theorem parseSimple_ordinary {k : String} (h : k.toList.all isOrdinary = true) :
    parseSimple k = some (k.toList.map Atom.ch) :=
  parseChars_ordinary k.toList (List.all_eq_true.1 h)

theorem matchAtoms_chars (p : List Char) :
    ∀ (s : List Char),
      (matchAtoms (p.map Atom.ch) s = true ↔
        List.IsPrefix (p.map Char.toLower) (s.map Char.toLower)) := by
  induction p with
  | nil =>
    intro s
    simp [matchAtoms, List.nil_prefix]
  | cons c cs ih =>
    intro s
    cases s with
    | nil =>
      simp only [List.map_cons, List.map_nil, matchAtoms]
      constructor
      · intro h
        exact absurd h (by simp)
      · intro h
        exact absurd h (by simp [List.prefix_nil])
    | cons d ds =>
      simp only [List.map_cons, matchAtoms, Bool.and_eq_true, List.cons_prefix_cons]
      rw [atomMatches]
      constructor
      · rintro ⟨h1, h2⟩
        exact ⟨of_decide_eq_true h1, (ih ds).1 h2⟩
      · rintro ⟨h1, h2⟩
        exact ⟨decide_eq_true h1, (ih ds).2 h2⟩

theorem reSearchAux_chars (p : List Char) :
    ∀ (s : List Char),
      (reSearchAux (p.map Atom.ch) s = true ↔
        List.IsInfix (p.map Char.toLower) (s.map Char.toLower)) := by
  intro s
  induction s with
  | nil =>
    rw [reSearchAux]
    rw [matchAtoms_chars p []]
    simp [List.infix_nil, List.prefix_nil]
  | cons d ds ih =>
    rw [reSearchAux, List.map_cons, List.infix_cons_iff]
    rw [Bool.or_eq_true]
    rw [matchAtoms_chars p (d :: ds), ih]
    rw [List.map_cons]

theorem searchMatches_ordinary (df : List Record) {k : String}
    (h : k.toList.all isOrdinary = true) :
    searchMatches df k = some (literalSearch df k) := by
  rw [searchMatches, parseSimple_ordinary h, Option.map_some']
  congr 1
  apply List.filter_congr
  intro r _
  cases ht : r.title with
  | none => rfl
  | some t =>
    show reSearchAux (k.toList.map Atom.ch) t.toList = containsCI k t
    rw [containsCI]
    cases hr : reSearchAux (k.toList.map Atom.ch) t.toList with
    | true =>
      exact (decide_eq_true ((reSearchAux_chars k.toList t.toList).1 hr)).symm
    | false =>
      refine (decide_eq_false ?_).symm
      intro hinf
      have := (reSearchAux_chars k.toList t.toList).2 hinf
      rw [hr] at this
      exact Bool.noConfusion this

end RegexLemmas

/-! ### The two sort orders are strict orders -/

theorem ltYearAsc_asym : ∀ x y : Int × Nat, ltYearAsc x y = true → ltYearAsc y x = false := by
  intro x y h
  rw [ltYearAsc] at h ⊢
  have := of_decide_eq_true h
  exact decide_eq_false (by omega)

theorem ltYearAsc_trans : ∀ x y z : Int × Nat,
    ltYearAsc y x = false → ltYearAsc z y = false → ltYearAsc z x = false := by
  intro x y z h1 h2
  rw [ltYearAsc] at h1 h2 ⊢
  have := of_decide_eq_false h1
  have := of_decide_eq_false h2
  exact decide_eq_false (by omega)

theorem ltCountDesc_asym : ∀ x y : String × Nat, ltCountDesc x y = true → ltCountDesc y x = false := by
  intro x y h
  rw [ltCountDesc] at h ⊢
  have := of_decide_eq_true h
  exact decide_eq_false (by omega)

theorem ltCountDesc_trans : ∀ x y z : String × Nat,
    ltCountDesc y x = false → ltCountDesc z y = false → ltCountDesc z x = false := by
  intro x y z h1 h2
  rw [ltCountDesc] at h1 h2 ⊢
  have := of_decide_eq_false h1
  have := of_decide_eq_false h2
  exact decide_eq_false (by omega)

/-! ### Concrete rows used as counterexamples and witnesses -/

/-- A raw row whose title cell holds the empty string (not NaN). -/
def rawEmptyTitle : RawRecord :=
  { title := some ""
    abstract := some "background"
    publish_time := none
    authors := none
    journal := none }

/-- A cleaned row titled "abc" with no journal. -/
def recAbc : Record :=
  { title := some "abc"
    abstract := some "x"
    publish_time := none
    authors := none
    journal := none
    year := none }

/-- A cleaned row filed under journal "A". -/
def recJournalA : Record := { recAbc with journal := some "A" }

/-- A dataset of 21 identical rows, all matching the keyword "b". -/
def df21 : List Record := List.replicate 21 recAbc

/-! ## Claim theorems -/

/-- C1, counterexample: the claim says no surviving row has a null *or empty*
title, but `dropna(subset=['title','abstract'])` drops only NaN cells: a raw
row whose title cell is the empty string `""` survives cleaning with its
empty title intact. -/
theorem clean_keeps_empty_title_cex :
    clean [rawEmptyTitle] = [toRecord rawEmptyTitle] ∧
    (toRecord rawEmptyTitle).title = some "" ∧
    (toRecord rawEmptyTitle).abstract.isSome = true := by
  refine ⟨by decide, rfl, rfl⟩

/-- C1 (amended): after `clean`, no surviving row has a *null* title or
abstract, and exactly the rows with a null title or abstract are removed
(the survivor count equals the count of raw rows with both cells non-null);
rows whose title or abstract is the empty string are not removed. -/
theorem clean_drops_only_null_title_abstract (rows : List RawRecord) :
    ((clean rows).all (fun r => r.title.isSome && r.abstract.isSome)) = true ∧
    (clean rows).length = rows.countP (fun raw => raw.title.isSome && raw.abstract.isSome) := by
  constructor
  · apply List.all_eq_true.2
    intro r hr
    exact (List.mem_filter.1 hr).2
  · rw [clean, dropnaTitleAbstract, ← List.countP_eq_length_filter, List.countP_map]
    rfl

/-- C7: for every row surviving `clean`, the derived `year` equals the
null-propagating year component of the coerced `publish_time`: `year` is
null exactly when `publish_time` failed to parse, and otherwise equals the
parsed date's year. -/
theorem clean_year_from_publish_time (rows : List RawRecord) :
    ((clean rows).all (fun r =>
      decide (r.year = r.publish_time.map Date.year) &&
      (r.year.isNone == r.publish_time.isNone))) = true := by
  apply List.all_eq_true.2
  intro r hr
  have hm : r ∈ rows.map toRecord := (List.mem_filter.1 hr).1
  rcases List.mem_map.1 hm with ⟨raw, _, rfl⟩
  rw [Bool.and_eq_true]
  constructor
  · apply decide_eq_true
    rfl
  · show ((toDatetime raw.publish_time).map Date.year).isNone ==
      (toDatetime raw.publish_time).isNone
    cases toDatetime raw.publish_time with
    | none => rfl
    | some d => rfl

/-- C8: the cleaned dataset is a sublist of the per-row-transformed input:
`clean` keeps a subset of the input rows in their original relative order,
never reordering, duplicating, or fabricating rows. -/
theorem clean_sublist_of_input (rows : List RawRecord) :
    (clean rows).Sublist (rows.map toRecord) :=
  List.filter_sublist _

/-- C2, counterexample: the claim says records with a null journal form
their own counted group, but `value_counts()` defaults to `dropna=True`: on
a two-row dataset with one null journal, `top_journals` reports only the
group "A" and its counts sum to 1, not 2 — the null-journal row is in no
group. -/
theorem top_journals_null_dropped_cex :
    top_journals [recJournalA, recAbc] = [("A", 1)] ∧
    recAbc.journal = none ∧
    ((top_journals [recJournalA, recAbc]).map Prod.snd).sum = 1 ∧
    [recJournalA, recAbc].length = 2 := by
  refine ⟨by decide, rfl, by decide, rfl⟩

/-- C2 (amended): records with a null journal are *excluded* from the
per-journal counts (dropped by `value_counts()`), not grouped: the group
counts sum to the number of rows with a non-null journal, and every
non-null journal value present in the dataset gets a group. -/
theorem top_journals_null_excluded (df : List Record) :
    ((rawJournalCounts df).map Prod.snd).sum = df.countP (fun r => r.journal.isSome) ∧
    (df.all (fun r =>
      match r.journal with
      | none => true
      | some j => decide (j ∈ (rawJournalCounts df).map Prod.fst))) = true := by
  constructor
  · rw [rawJournalCounts, sum_countPairs, List.countP_map]
    rfl
  · apply List.all_eq_true.2
    intro r hr
    cases hj : r.journal with
    | none => rfl
    | some j =>
      apply decide_eq_true
      rw [rawJournalCounts, countPairs_fst]
      exact mem_firstKeys.2 (List.mem_map.2 ⟨r, hr, hj⟩)

/-- C4: `papers_per_year` is strictly sorted ascending by year (hence no
duplicate years), each listed year carries its true row count, and the
counts sum to the number of cleaned rows with a non-null year — so rows
with a null year are excluded from the aggregation. -/
theorem papers_per_year_sorted_and_total (df : List Record) :
    (papers_per_year df).Pairwise (fun a b => a.1 < b.1) ∧
    ((papers_per_year df).map Prod.snd).sum = df.countP (fun r => r.year.isSome) ∧
    ((papers_per_year df).all (fun p =>
      decide (p.2 = df.countP (fun r => decide (r.year = some p.1))))) = true := by
  have hperm : List.Perm (papers_per_year df) (rawYearCounts df) :=
    sortOrd_perm ltYearAsc (rawYearCounts df)
  refine ⟨?_, ?_, ?_⟩
  · have hsort := pairwise_sortOrd ltYearAsc ltYearAsc_asym ltYearAsc_trans (rawYearCounts df)
    have hle : (papers_per_year df).Pairwise (fun a b => a.1 ≤ b.1) :=
      hsort.imp (fun h => not_lt.1 (of_decide_eq_false h))
    have hnodup : ((papers_per_year df).map Prod.fst).Nodup := by
      have h1 : (rawYearCounts df).map Prod.fst = firstKeys (df.map Record.year) :=
        countPairs_fst _
      have h2 : ((rawYearCounts df).map Prod.fst).Nodup := by
        rw [h1]; exact firstKeys_nodup _
      exact (hperm.map Prod.fst).symm.nodup h2
    have hne : (papers_per_year df).Pairwise (fun a b => a.1 ≠ b.1) :=
      List.pairwise_map.1 hnodup
    exact (hle.and hne).imp (fun h => lt_of_le_of_ne h.1 h.2)
  · rw [(hperm.map Prod.snd).sum_eq, rawYearCounts, sum_countPairs, List.countP_map]
    rfl
  · apply List.all_eq_true.2
    intro p hp
    apply decide_eq_true
    have hp2 : p ∈ countPairs (df.map Record.year) := by
      rw [← rawYearCounts]
      exact hperm.mem_iff.1 hp
    rw [mem_countPairs hp2, List.countP_map]
    rfl

/-- `top_journals` returns at most 10 entries, sorted by count descending,
each entry's count being that journal's true count over the cleaned
dataset. The final conjunct — entries of equal count appear in
first-encountered journal order — holds of the model only because `sortOrd`
determinizes pandas' unspecified tie order to first-occurrence order; it is
a property of that determinization, not of the program. -/
theorem top_journals_sorted_true_counts (df : List Record) :
    (top_journals df).length ≤ 10 ∧
    (top_journals df).Pairwise (fun a b => b.2 ≤ a.2) ∧
    ((top_journals df).all (fun p =>
      decide (p.2 = df.countP (fun r => decide (r.journal = some p.1))))) = true ∧
    ∀ n : Nat,
      ((top_journals df).filter (fun p => decide (p.2 = n))).Sublist
        ((rawJournalCounts df).filter (fun p => decide (p.2 = n))) := by
  refine ⟨List.length_take_le _ _, ?_, ?_, ?_⟩
  · have hsort := pairwise_sortOrd ltCountDesc ltCountDesc_asym ltCountDesc_trans
      (rawJournalCounts df)
    have htake : (top_journals df).Pairwise (fun x y => ltCountDesc y x = false) :=
      hsort.sublist (List.take_sublist 10 _)
    exact htake.imp (fun h => Nat.not_lt.1 (of_decide_eq_false h))
  · apply List.all_eq_true.2
    intro p hp
    apply decide_eq_true
    have hp1 : p ∈ sortOrd ltCountDesc (rawJournalCounts df) :=
      List.take_subset _ _ hp
    have hp2 : p ∈ countPairs (df.map Record.journal) := by
      rw [← rawJournalCounts]
      exact (sortOrd_perm ltCountDesc (rawJournalCounts df)).mem_iff.1 hp1
    rw [mem_countPairs hp2, List.countP_map]
    rfl
  · intro n
    have hflat : ∀ x y : String × Nat,
        decide (x.2 = n) = true → decide (y.2 = n) = true → ltCountDesc x y = false := by
      intro x y hx hy
      have hx' := of_decide_eq_true hx
      have hy' := of_decide_eq_true hy
      rw [ltCountDesc]
      exact decide_eq_false (by omega)
    have hstable := filter_sortOrd ltCountDesc (fun p => decide (p.2 = n)) hflat
      (rawJournalCounts df)
    have hsub := (List.take_sublist 10
      (sortOrd ltCountDesc (rawJournalCounts df))).filter (fun p => decide (p.2 = n))
    rw [hstable] at hsub
    exact hsub

/-- C3, counterexample: the claim says search matches the keyword as a
*literal* case-insensitive substring, but `str.contains` defaults to
`regex=True`: the keyword "a.c" matches the title "abc" (the
metacharacter `.` matches `b`), although "abc" does not contain "a.c" as a
literal substring — the code returns the row, the literal reading returns
nothing. -/
theorem search_regex_not_literal_cex :
    searchResults [recAbc] "a.c" = some [recAbc] ∧
    recAbc.title = some "abc" ∧
    containsCI "a.c" "abc" = false ∧
    literalSearch [recAbc] "a.c" = [] := by
  refine ⟨by decide, rfl, by decide, by decide⟩

/-- C3 (amended): the keyword is interpreted as a case-insensitive Python
regular expression; for non-empty keywords built only of regex-ordinary
characters (no metacharacters, no `.`) the claim holds as stated: search
returns exactly the records whose title contains the keyword as a literal
case-insensitive substring, search("COVID") and search("covid") agree, and
a record with a null title never matches (`na=False`). -/
theorem search_literal_on_ordinary_keywords (df : List Record) (k : String)
    (hk : k ≠ "") (h : k.toList.all isOrdinary = true) :
    searchResults df k = some (literalSearch df k) ∧
    searchResults df "COVID" = searchResults df "covid" ∧
    (((searchResults df k).getD []).all (fun r => r.title.isSome)) = true := by
  have hres : searchResults df k = some (literalSearch df k) := by
    rw [searchResults, if_neg hk]
    exact searchMatches_ordinary df h
  refine ⟨hres, ?_, ?_⟩
  · have h1 : searchMatches df "COVID" = some (literalSearch df "COVID") :=
      searchMatches_ordinary df (by decide)
    have h2 : searchMatches df "covid" = some (literalSearch df "covid") :=
      searchMatches_ordinary df (by decide)
    have heq : literalSearch df "COVID" = literalSearch df "covid" := by
      apply List.filter_congr
      intro r _
      cases ht : r.title with
      | none => rfl
      | some t =>
        show containsCI "COVID" t = containsCI "covid" t
        rw [containsCI, containsCI,
          show lowerChars "COVID" = lowerChars "covid" from by decide]
    rw [searchResults, searchResults, if_neg (by decide : ¬ ("COVID" : String) = ""),
      if_neg (by decide : ¬ ("covid" : String) = ""), h1, h2, heq]
  · rw [hres]
    apply List.all_eq_true.2
    intro r hr
    have hfil := (List.mem_filter.1 hr).2
    cases ht : r.title with
    | none =>
      rw [literalSearch] at hr
      have := (List.mem_filter.1 hr).2
      rw [ht] at this
      exact absurd this (by simp)
    | some t => rfl

/-- Witness for the amended C3 at the dataset `[recAbc]` and keyword "b". -/
theorem search_literal_on_ordinary_keywords_witness :
    searchResults [recAbc] "b" = some (literalSearch [recAbc] "b") ∧
    searchResults [recAbc] "COVID" = searchResults [recAbc] "covid" ∧
    (((searchResults [recAbc] "b").getD []).all (fun r => r.title.isSome)) = true :=
  search_literal_on_ordinary_keywords [recAbc] "b" (by decide) (by decide)

/-- C5: an empty keyword yields no search at all — the guard
`if st.button("Search") and keyword:` short-circuits, so the result, the
displayed rows and the reported count are all empty regardless of the
dataset. -/
theorem search_empty_keyword_no_results (df : List Record) :
    searchResults df "" = some [] ∧
    displayedResults df "" = some [] ∧
    reportedCount df "" = some 0 := by
  have h : searchResults df "" = some [] := by
    rw [searchResults, if_pos rfl]
  refine ⟨h, ?_, ?_⟩
  · rw [displayedResults, h]
    rfl
  · rw [reportedCount, h]
    rfl

/-- C6: a missing dataset file fails with `FileNotFound`; `load_data`
substitutes an empty dataset, on which both aggregations and the search
return empty sequences (no exception is modelled anywhere in these total
functions). -/
theorem load_missing_file_degrades :
    readCsv none = Except.error LoadError.fileNotFound ∧
    load_data none = [] ∧
    papers_per_year [] = [] ∧
    top_journals [] = [] ∧
    ∀ k : String, (searchResults [] k).getD [] = [] := by
  refine ⟨rfl, rfl, rfl, rfl, ?_⟩
  intro k
  rw [searchResults]
  by_cases hk : k = ""
  · rw [if_pos hk]
    rfl
  · rw [if_neg hk, searchMatches]
    cases parseSimple k with
    | none => rfl
    | some atoms => rfl

/-- C10 (implicit): when more than 20 rows match a keyword, the displayed
table is truncated to the first 20 matches (`.head(20)`), while the success
message reports the full match count (`len(results)`): the displayed row
count and the reported count disagree. -/
theorem search_truncates_display_not_count (df : List Record) (k : String)
    (ms : List Record) (h : searchResults df k = some ms) (h20 : 20 < ms.length) :
    displayedResults df k = some (ms.take 20) ∧
    reportedCount df k = some ms.length ∧
    (ms.take 20).length = 20 ∧
    (ms.take 20).length < ms.length := by
  refine ⟨?_, ?_, ?_, ?_⟩
  · rw [displayedResults, h]
    rfl
  · rw [reportedCount, h]
    rfl
  · rw [List.length_take]
    omega
  · rw [List.length_take]
    omega

/-- Witness for C10 at the 21-row dataset `df21` and keyword "b". -/
theorem search_truncates_display_not_count_witness :
    displayedResults df21 "b" = some (df21.take 20) ∧
    reportedCount df21 "b" = some df21.length ∧
    (df21.take 20).length = 20 ∧
    (df21.take 20).length < df21.length :=
  search_truncates_display_not_count df21 "b" df21 (by decide) (by decide)

end CordApp
